import Mathlib

/-!
Shallow embedding of the core of qemu-nbd.c: the MBR/EBR partition locator
(read_partition / find_partition) and the connection admission and lifecycle
state (nbd_can_accept / nbd_client_closed / nbd_accept and the main loop's
continuation predicate).

Modelling conventions:
- a 512-byte sector is a function Nat -> Nat; reading a byte applies % 256,
  matching the uint8_t element type of the C buffers;
- the backing image is a function from sector index to sector contents
  (bdrv_read failures abort the whole process inside find_partition via
  err(EXIT_FAILURE), so they never produce a return value of the function
  and are outside the modelled state space);
- C int values that the code compares and counts (partition, nb_fds, shared,
  persistent) are Int; the C expressions never overflow 32 bits on the
  modelled paths;
- off_t results are Nat: the C code computes (uint64_t)v << 9 with
  v : uint32_t, which stays far below 2^63, so the int64 store is exact.
-/

/-- Read one byte of a buffer: the C buffers are uint8_t arrays, so every
stored value is reduced mod 256. -/
def byte (p : Nat → Nat) (i : Nat) : Nat := p i % 256

/-- A 16-byte window of a buffer starting at offset off
(the C code passes a pointer to the slot, &data[446 + 16 * i]). -/
def buf_at (data : Nat → Nat) (off : Nat) : Nat → Nat := fun k => data (off + k)

/-- One decoded boot-record table entry, mirroring struct partition_record.
Field types follow the C struct: all fields are unsigned, and the uint8_t
field end_cylinder truncates its stored value mod 256. -/
structure partition_record where
  bootable : Nat
  start_head : Nat
  start_cylinder : Nat
  start_sector : Nat
  system : Nat
  end_head : Nat
  end_cylinder : Nat
  end_sector : Nat
  start_sector_abs : Nat
  nb_sectors_abs : Nat
deriving DecidableEq

/-- Decoder of one 16-byte table slot, mirroring read_partition.
start_cylinder is stored in a uint32_t, and its value
p[3] | ((p[2] << 2) & 0x0300) is below 2^10, so no reduction is needed;
end_cylinder is stored in a uint8_t, so the C assignment keeps only the
low 8 bits of p[7] | ((p[6] << 2) & 0x300), hence the % 256;
the two absolute-LBA fields are stored in uint32_t and their values are
below 2^32, so those stores are exact. -/
def read_partition (p : Nat → Nat) : partition_record where
  bootable := byte p 0
  start_head := byte p 1
  start_cylinder := byte p 3 ||| ((byte p 2 <<< 2) &&& 0x0300)
  start_sector := byte p 2 &&& 0x3f
  system := byte p 4
  end_head := byte p 5
  end_cylinder := (byte p 7 ||| ((byte p 6 <<< 2) &&& 0x300)) % 256
  end_sector := byte p 6 &&& 0x3f
  start_sector_abs :=
    byte p 8 ||| (byte p 9 <<< 8) ||| (byte p 10 <<< 16) ||| (byte p 11 <<< 24)
  nb_sectors_abs :=
    byte p 12 ||| (byte p 13 <<< 8) ||| (byte p 14 <<< 16) ||| (byte p 15 <<< 24)

/-- The record decoded from table slot i of a 512-byte sector:
read_partition(&data[446 + 16 * i], ...). -/
def slot_rec (data : Nat → Nat) (i : Nat) : partition_record :=
  read_partition (buf_at data (446 + 16 * i))

/-- The extended-container test of find_partition:
mbr[i].system == 0xF || mbr[i].system == 0x5. -/
def is_ext_rec (r : partition_record) : Prop := r.system = 0xF ∨ r.system = 0x5

instance (r : partition_record) : Decidable (is_ext_rec r) := by
  unfold is_ext_rec; infer_instance

/-- The byte value a matched slot contributes to *offset and *size:
(uint64_t)v << 9 reduced mod 2^64 (v is a uint32_t field, so the value
is below 2^41 and the reduction is the identity). -/
def sector_bytes (v : Nat) : Nat := (v <<< 9) % 2 ^ 64

/-- Result of find_partition: 0 with *offset and *size set, -EINVAL, or
-ENOENT. -/
inductive FindResult where
  | found (offset size : Nat)
  | einval
  | enoent
deriving DecidableEq

/-- The inner loop of find_partition over the sub-slots of one extended
container: skip empty sub-slots, and return the offset/size pair of the
first sub-slot j with ext_partnum + j + 1 == partition. -/
def scan_ext (data1 : Nat → Nat) (ext_partnum : Nat) (partition : Int) :
    List Nat → Option (Nat × Nat)
  | [] => none
  | j :: rest =>
    let e := slot_rec data1 j
    if e.nb_sectors_abs = 0 then scan_ext data1 ext_partnum partition rest
    else if ((ext_partnum : Int) + j + 1 = partition) then
      some (sector_bytes e.start_sector_abs, sector_bytes e.nb_sectors_abs)
    else scan_ext data1 ext_partnum partition rest

/-- The outer loop of find_partition over the primary slots (the C for loop
with i = 0..3 and the running ext_partnum counter, initialized to 4 and
advanced by 4 per non-empty extended container visited). -/
def find_from (disk : Nat → Nat → Nat) (data : Nat → Nat) (partition : Int) :
    Nat → List Nat → FindResult
  | _, [] => .enoent
  | ext_partnum, i :: rest =>
    let r := slot_rec data i
    if r.nb_sectors_abs = 0 then
      find_from disk data partition ext_partnum rest
    else if is_ext_rec r then
      match scan_ext (disk r.start_sector_abs) ext_partnum partition [0, 1, 2, 3] with
      | some (o, s) => .found o s
      | none => find_from disk data partition (ext_partnum + 4) rest
    else if ((i : Int) + 1 = partition) then
      .found (sector_bytes r.start_sector_abs) (sector_bytes r.nb_sectors_abs)
    else
      find_from disk data partition ext_partnum rest

/-- find_partition: check the boot signature of sector 0, then scan the four
primary slots with ext_partnum starting at 4. -/
def find_partition (disk : Nat → Nat → Nat) (partition : Int) : FindResult :=
  if byte (disk 0) 510 ≠ 0x55 ∨ byte (disk 0) 511 ≠ 0xaa then .einval
  else find_from disk (disk 0) partition 4 [0, 1, 2, 3]

/-- The boot-signature check of find_partition holds. -/
def valid_sig (disk : Nat → Nat → Nat) : Prop :=
  byte (disk 0) 510 = 0x55 ∧ byte (disk 0) 511 = 0xaa

instance (disk : Nat → Nat → Nat) : Decidable (valid_sig disk) := by
  unfold valid_sig; infer_instance

/-- Primary slot i of the image (decoded from sector 0). -/
def primary_rec (disk : Nat → Nat → Nat) (i : Nat) : partition_record :=
  slot_rec (disk 0) i

/-- Primary slot i is a non-empty extended container (it is visited by the
container branch of find_partition and advances ext_partnum by 4). -/
def is_ext_slot (disk : Nat → Nat → Nat) (i : Nat) : Prop :=
  (primary_rec disk i).nb_sectors_abs ≠ 0 ∧ is_ext_rec (primary_rec disk i)

instance (disk : Nat → Nat → Nat) (i : Nat) : Decidable (is_ext_slot disk i) := by
  unfold is_ext_slot; infer_instance

/-- Logical sub-slot j of the container in primary slot i (decoded from the
sector at that slot's absolute start LBA). -/
def logical_rec (disk : Nat → Nat → Nat) (i j : Nat) : partition_record :=
  slot_rec (disk (primary_rec disk i).start_sector_abs) j

/-- Number of non-empty extended containers among the slots listed in l. -/
def ext_slots_in (data : Nat → Nat) (l : List Nat) : Nat :=
  l.countP fun x =>
    decide ((slot_rec data x).nb_sectors_abs ≠ 0 ∧ is_ext_rec (slot_rec data x))

/-- Number of non-empty extended containers in primary slots 0..i-1: the
amount by which ext_partnum has been advanced (divided by 4) when the outer
loop reaches slot i. -/
def ext_index (disk : Nat → Nat → Nat) (i : Nat) : Nat :=
  ext_slots_in (disk 0) (List.range i)

/-- How much one primary slot advances the ext_partnum counter: 4 for a
non-empty extended container, 0 otherwise. -/
def ext_bump (data : Nat → Nat) (x : Nat) : Nat :=
  if (slot_rec data x).nb_sectors_abs ≠ 0 ∧ is_ext_rec (slot_rec data x) then 4 else 0

/-- Some slot of the image is assigned the requested partition number by
find_partition's numbering: either a non-empty, non-container primary slot i
with number i + 1, or a non-empty logical sub-slot j of the container in
primary slot i with number 4 + 4 * ext_index + j + 1. -/
def slot_matches (disk : Nat → Nat → Nat) (partition : Int) : Prop :=
  (∃ i : Fin 4, (primary_rec disk i).nb_sectors_abs ≠ 0 ∧
    ¬ is_ext_rec (primary_rec disk i) ∧ ((i : Int) + 1 = partition)) ∨
  (∃ i : Fin 4, ∃ j : Fin 4, is_ext_slot disk i ∧
    (logical_rec disk i j).nb_sectors_abs ≠ 0 ∧
    ((4 : Int) + 4 * ext_index disk i + j + 1 = partition))

instance (disk : Nat → Nat → Nat) (p : Int) : Decidable (slot_matches disk p) := by
  unfold slot_matches; infer_instance

/-- The mutable server globals shared by the acceptor, the close
notification and the main loop: nb_fds and shared are C ints,
nbd_started and sigterm_reported are C bools. -/
structure ServerState where
  nb_fds : Int
  shared : Int
  nbd_started : Bool
  sigterm_reported : Bool
deriving DecidableEq

/-- nbd_can_accept: return nb_fds < shared (a C int condition, read fresh
from the globals each time the main loop polls the listener). -/
def nbd_can_accept (s : ServerState) : Bool := decide (s.nb_fds < s.shared)

/-- nbd_client_closed: the close notification the protocol engine invokes
once per terminated connection; it decrements nb_fds unconditionally
(qemu_notify_event only wakes the main loop and is stateless here). -/
def nbd_client_closed (s : ServerState) : ServerState :=
  { s with nb_fds := s.nb_fds - 1 }

/-- nbd_accept: one readiness event. fd_ok tells whether accept(2) returned
a non-negative fd, client_ok whether nbd_client_new succeeded (it is only
consulted when fd_ok holds, mirroring the short-circuit &&). The code sets
nbd_started = true right after the accept call, before checking fd, and
increments nb_fds only when fd >= 0 && nbd_client_new(...) holds. -/
def nbd_accept (s : ServerState) (fd_ok client_ok : Bool) : ServerState :=
  let s1 := { s with nbd_started := true }
  if fd_ok && client_ok then { s1 with nb_fds := s1.nb_fds + 1 } else s1

/-- termsig_handler: the SIGTERM handler sets sigterm_reported and wakes the
main loop. -/
def termsig_handler (s : ServerState) : ServerState :=
  { s with sigterm_reported := true }

/-- The continuation condition of the do/while main loop:
!sigterm_reported && (persistent || !nbd_started || nb_fds > 0),
with persistent a C int tested for non-zero. -/
def main_loop_continue (persistent : Int) (s : ServerState) : Bool :=
  !s.sigterm_reported &&
    (decide (persistent ≠ 0) || !s.nbd_started || decide (s.nb_fds > 0))

/-- n consecutive successful accepts (fd valid and client registered). -/
def accept_n : Nat → ServerState → ServerState
  | 0, s => s
  | n + 1, s => nbd_accept (accept_n n s) true true

/-- Image with a valid boot signature whose primary slot 1 (table index 0)
is {system = 0x83, start_sector_abs = 2048, nb_sectors_abs = 204800} and all
other slots empty. -/
def sample_disk : Nat → Nat → Nat := fun s i =>
  if s = 0 then
    if i = 510 then 0x55 else if i = 511 then 0xaa
    else if i = 450 then 0x83
    else if i = 455 then 0x08
    else if i = 459 then 0x20 else if i = 460 then 0x03
    else 0
  else 0

/-- Image with a valid boot signature, an extended container in primary
slot 0 (system 0x5, start LBA 100, 1 sector) whose sector 100 holds one
non-empty logical sub-slot {system 0x83, start LBA 7, 1 sector} in
sub-slot 0, and all other slots empty. -/
def ext_disk : Nat → Nat → Nat := fun s i =>
  if s = 0 then
    if i = 510 then 0x55 else if i = 511 then 0xaa
    else if i = 450 then 0x05
    else if i = 454 then 100
    else if i = 458 then 0x01
    else 0
  else if s = 100 then
    if i = 450 then 0x83
    else if i = 454 then 0x07
    else if i = 458 then 0x01
    else 0
  else 0

/-- Image with a valid boot signature and four empty primary slots. -/
def empty_mbr_disk : Nat → Nat → Nat := fun _ i =>
  if i = 510 then 0x55 else if i = 511 then 0xaa else 0

/-- All-zero image: its sector 0 lacks the boot signature. -/
def zero_disk : Nat → Nat → Nat := fun _ _ => 0

/-- A 16-byte table slot whose end-sector byte p[6] has its two high bits
set (0xC0) and whose end-cylinder low byte p[7] is 0: the 10-bit CHS
assembly p[7] | ((p[6] << 2) & 0x300) equals 768. -/
def cyl_slot : Nat → Nat := fun k => if k = 6 then 0xC0 else 0

lemma byte_lt (p : Nat → Nat) (i : Nat) : byte p i < 256 :=
  Nat.mod_lt _ (by norm_num)

lemma four_bytes_lt (b0 b1 b2 b3 : Nat)
    (h0 : b0 < 256) (h1 : b1 < 256) (h2 : b2 < 256) (h3 : b3 < 256) :
    b0 ||| (b1 <<< 8) ||| (b2 <<< 16) ||| (b3 <<< 24) < 2 ^ 32 := by
  have e1 : b1 <<< 8 = b1 * 256 := by rw [Nat.shiftLeft_eq]
  have e2 : b2 <<< 16 = b2 * 65536 := by rw [Nat.shiftLeft_eq]
  have e3 : b3 <<< 24 = b3 * 16777216 := by rw [Nat.shiftLeft_eq]
  have p32 : (2 : Nat) ^ 32 = 4294967296 := by norm_num
  apply Nat.or_lt_two_pow
  · apply Nat.or_lt_two_pow
    · apply Nat.or_lt_two_pow
      · omega
      · rw [e1]; omega
    · rw [e2]; omega
  · rw [e3]; omega

lemma read_partition_start_abs_lt (p : Nat → Nat) :
    (read_partition p).start_sector_abs < 2 ^ 32 := by
  have h := four_bytes_lt (byte p 8) (byte p 9) (byte p 10) (byte p 11)
    (byte_lt p 8) (byte_lt p 9) (byte_lt p 10) (byte_lt p 11)
  simpa [read_partition] using h

lemma read_partition_nb_abs_lt (p : Nat → Nat) :
    (read_partition p).nb_sectors_abs < 2 ^ 32 := by
  have h := four_bytes_lt (byte p 12) (byte p 13) (byte p 14) (byte p 15)
    (byte_lt p 12) (byte_lt p 13) (byte_lt p 14) (byte_lt p 15)
  simpa [read_partition] using h

lemma sector_bytes_eq (v : Nat) (h : v < 2 ^ 32) : sector_bytes v = v * 512 := by
  unfold sector_bytes
  rw [Nat.shiftLeft_eq]
  have e9 : (2 : Nat) ^ 9 = 512 := by norm_num
  have e32 : (2 : Nat) ^ 32 = 4294967296 := by norm_num
  have e64 : (2 : Nat) ^ 64 = 18446744073709551616 := by norm_num
  rw [e9]
  apply Nat.mod_eq_of_lt
  rw [e64]
  rw [e32] at h
  omega

lemma scan_ext_nil (d : Nat → Nat) (en : Nat) (p : Int) :
    scan_ext d en p [] = none := rfl

lemma scan_ext_cons (d : Nat → Nat) (en : Nat) (p : Int) (j : Nat) (rest : List Nat) :
    scan_ext d en p (j :: rest) =
      (if (slot_rec d j).nb_sectors_abs = 0 then scan_ext d en p rest
       else if ((en : Int) + j + 1 = p) then
         some (sector_bytes (slot_rec d j).start_sector_abs,
               sector_bytes (slot_rec d j).nb_sectors_abs)
       else scan_ext d en p rest) := rfl

lemma scan_ext_skip (d : Nat → Nat) (en : Nat) (p : Int) (j : Nat) (rest : List Nat)
    (h : (slot_rec d j).nb_sectors_abs = 0 ∨ ((en : Int) + j + 1 ≠ p)) :
    scan_ext d en p (j :: rest) = scan_ext d en p rest := by
  rw [scan_ext_cons]
  by_cases h0 : (slot_rec d j).nb_sectors_abs = 0
  · rw [if_pos h0]
  · rcases h with h | h
    · exact absurd h h0
    · rw [if_neg h0, if_neg h]

lemma scan_ext_found (d : Nat → Nat) (en : Nat) (p : Int) (j : Nat) (rest : List Nat)
    (hnb : (slot_rec d j).nb_sectors_abs ≠ 0) (hp : (en : Int) + j + 1 = p) :
    scan_ext d en p (j :: rest) =
      some (sector_bytes (slot_rec d j).start_sector_abs,
            sector_bytes (slot_rec d j).nb_sectors_abs) := by
  rw [scan_ext_cons, if_neg hnb, if_pos hp]

lemma scan_ext_none (d : Nat → Nat) (en : Nat) (p : Int) :
    ∀ js : List Nat,
      (∀ j ∈ js, (slot_rec d j).nb_sectors_abs ≠ 0 → ((en : Int) + j + 1 ≠ p)) →
      scan_ext d en p js = none := by
  intro js
  induction js with
  | nil => intro _; rfl
  | cons j rest ih =>
    intro h
    by_cases h0 : (slot_rec d j).nb_sectors_abs = 0
    · rw [scan_ext_skip d en p j rest (Or.inl h0)]
      exact ih fun x hx => h x (List.mem_cons_of_mem _ hx)
    · rw [scan_ext_skip d en p j rest (Or.inr (h j (List.mem_cons_self _ _) h0))]
      exact ih fun x hx => h x (List.mem_cons_of_mem _ hx)

lemma scan_ext_hit (d : Nat → Nat) (en : Nat) (j : Nat) (hj : j < 4)
    (hnb : (slot_rec d j).nb_sectors_abs ≠ 0) :
    scan_ext d en ((en : Int) + j + 1) [0, 1, 2, 3] =
      some (sector_bytes (slot_rec d j).start_sector_abs,
            sector_bytes (slot_rec d j).nb_sectors_abs) := by
  interval_cases j
  · rw [scan_ext_found d en _ 0 _ hnb rfl]
  · rw [scan_ext_skip d en _ 0 _ (Or.inr (by omega)),
      scan_ext_found d en _ 1 _ hnb rfl]
  · rw [scan_ext_skip d en _ 0 _ (Or.inr (by omega)),
      scan_ext_skip d en _ 1 _ (Or.inr (by omega)),
      scan_ext_found d en _ 2 _ hnb rfl]
  · rw [scan_ext_skip d en _ 0 _ (Or.inr (by omega)),
      scan_ext_skip d en _ 1 _ (Or.inr (by omega)),
      scan_ext_skip d en _ 2 _ (Or.inr (by omega)),
      scan_ext_found d en _ 3 _ hnb rfl]

lemma find_from_nil (disk : Nat → Nat → Nat) (data : Nat → Nat) (p : Int) (en : Nat) :
    find_from disk data p en [] = .enoent := rfl

lemma find_from_cons (disk : Nat → Nat → Nat) (data : Nat → Nat) (p : Int)
    (en i : Nat) (rest : List Nat) :
    find_from disk data p en (i :: rest) =
      (if (slot_rec data i).nb_sectors_abs = 0 then find_from disk data p en rest
       else if is_ext_rec (slot_rec data i) then
         (match scan_ext (disk (slot_rec data i).start_sector_abs) en p [0, 1, 2, 3] with
          | some (o, s) => .found o s
          | none => find_from disk data p (en + 4) rest)
       else if ((i : Int) + 1 = p) then
         .found (sector_bytes (slot_rec data i).start_sector_abs)
                (sector_bytes (slot_rec data i).nb_sectors_abs)
       else find_from disk data p en rest) := rfl

lemma ext_bump_eq_zero (data : Nat → Nat) (x : Nat)
    (h : ¬ ((slot_rec data x).nb_sectors_abs ≠ 0 ∧ is_ext_rec (slot_rec data x))) :
    ext_bump data x = 0 := by
  unfold ext_bump; rw [if_neg h]

lemma ext_bump_eq_four (data : Nat → Nat) (x : Nat)
    (h : (slot_rec data x).nb_sectors_abs ≠ 0 ∧ is_ext_rec (slot_rec data x)) :
    ext_bump data x = 4 := by
  unfold ext_bump; rw [if_pos h]

lemma ext_slots_in_nil (data : Nat → Nat) : ext_slots_in data [] = 0 := rfl

lemma ext_bump_count (data : Nat → Nat) (x : Nat) (l : List Nat) :
    4 * ext_slots_in data (x :: l) = ext_bump data x + 4 * ext_slots_in data l := by
  unfold ext_bump ext_slots_in
  rw [List.countP_cons]
  by_cases h : (slot_rec data x).nb_sectors_abs ≠ 0 ∧ is_ext_rec (slot_rec data x)
  · rw [if_pos h, decide_eq_true h]
    simp only [if_true]
    omega
  · rw [if_neg h, decide_eq_false h]
    simp only [Bool.false_eq_true, if_false]
    omega

lemma find_from_skip (disk : Nat → Nat → Nat) (data : Nat → Nat) (p : Int)
    (en x : Nat) (rest : List Nat)
    (h1 : (slot_rec data x).nb_sectors_abs ≠ 0 → ¬ is_ext_rec (slot_rec data x) →
      ((x : Int) + 1 ≠ p))
    (h2 : (slot_rec data x).nb_sectors_abs ≠ 0 → is_ext_rec (slot_rec data x) →
      scan_ext (disk (slot_rec data x).start_sector_abs) en p [0, 1, 2, 3] = none) :
    find_from disk data p en (x :: rest) =
      find_from disk data p (en + ext_bump data x) rest := by
  rw [find_from_cons]
  by_cases h0 : (slot_rec data x).nb_sectors_abs = 0
  · rw [if_pos h0, ext_bump_eq_zero data x (fun h => h.1 h0), Nat.add_zero]
  · rw [if_neg h0]
    by_cases hext : is_ext_rec (slot_rec data x)
    · rw [if_pos hext, h2 h0 hext, ext_bump_eq_four data x ⟨h0, hext⟩]
    · rw [if_neg hext, if_neg (h1 h0 hext),
        ext_bump_eq_zero data x (fun h => hext h.2), Nat.add_zero]

lemma mem_range4 (j : Nat) (h : j ∈ [0, 1, 2, 3]) : j < 4 := by
  simp only [List.mem_cons, List.not_mem_nil, or_false] at h
  rcases h with h | h | h | h <;> omega

lemma ext_slots_nonneg (data : Nat → Nat) (l : List Nat) :
    (0 : Int) ≤ (ext_slots_in data l : Int) := Int.ofNat_nonneg _

lemma find_from_logical (disk : Nat → Nat → Nat) (data : Nat → Nat) (i j : Nat)
    (hnb : (slot_rec data i).nb_sectors_abs ≠ 0)
    (hext : is_ext_rec (slot_rec data i))
    (hj : j < 4)
    (hjnb : (slot_rec (disk (slot_rec data i).start_sector_abs) j).nb_sectors_abs ≠ 0) :
    ∀ (pre : List Nat), (∀ x ∈ pre, x < 4) →
    ∀ (post : List Nat) (en : Nat) (p : Int), 4 ≤ en →
      p = (en : Int) + 4 * ext_slots_in data pre + j + 1 →
      find_from disk data p en (pre ++ i :: post) =
        .found (sector_bytes (slot_rec (disk (slot_rec data i).start_sector_abs) j).start_sector_abs)
               (sector_bytes (slot_rec (disk (slot_rec data i).start_sector_abs) j).nb_sectors_abs) := by
  intro pre
  induction pre with
  | nil =>
    intro _ post en p _ hp
    have hp' : p = (en : Int) + j + 1 := by
      rw [hp, ext_slots_in_nil]; push_cast; ring
    rw [List.nil_append, find_from_cons, if_neg hnb, if_pos hext, hp',
      scan_ext_hit (disk (slot_rec data i).start_sector_abs) en j hj hjnb]
  | cons x pre' ih =>
    intro hlt post en p hen hp
    have hx4 : x < 4 := hlt x (List.mem_cons_self _ _)
    have hbc := ext_bump_count data x pre'
    have hnn := ext_slots_nonneg data pre'
    have hnn' := ext_slots_nonneg data (x :: pre')
    have hpge : (en : Int) + 1 ≤ p := by rw [hp]; omega
    rw [List.cons_append,
      find_from_skip disk data p en x (pre' ++ i :: post)
        (fun _ _ => by omega)
        (fun hxnb hxext => by
          apply scan_ext_none
          intro j' hj' _
          have hj4 : j' < 4 := mem_range4 j' hj'
          have hb4 : ext_bump data x = 4 := ext_bump_eq_four data x ⟨hxnb, hxext⟩
          rw [hb4] at hbc
          rw [hp]
          omega)]
    apply ih (fun y hy => hlt y (List.mem_cons_of_mem _ hy)) post (en + ext_bump data x) p
      (by omega)
    rw [hp]
    push_cast
    push_cast at hbc
    omega

lemma find_from_primary (disk : Nat → Nat → Nat) (data : Nat → Nat) (i : Nat)
    (hi : i < 4)
    (hnb : (slot_rec data i).nb_sectors_abs ≠ 0)
    (hnotext : ¬ is_ext_rec (slot_rec data i)) :
    ∀ (pre : List Nat), (∀ x ∈ pre, x ≠ i) →
    ∀ (post : List Nat) (en : Nat), 4 ≤ en →
      find_from disk data ((i : Int) + 1) en (pre ++ i :: post) =
        .found (sector_bytes (slot_rec data i).start_sector_abs)
               (sector_bytes (slot_rec data i).nb_sectors_abs) := by
  intro pre
  induction pre with
  | nil =>
    intro _ post en _
    rw [List.nil_append, find_from_cons, if_neg hnb, if_neg hnotext, if_pos rfl]
  | cons x pre' ih =>
    intro hne post en hen
    have hxi : x ≠ i := hne x (List.mem_cons_self _ _)
    rw [List.cons_append,
      find_from_skip disk data ((i : Int) + 1) en x (pre' ++ i :: post)
        (fun _ _ => by
          intro hc
          apply hxi
          omega)
        (fun _ _ => by
          apply scan_ext_none
          intro j' hj' _
          have hj4 : j' < 4 := mem_range4 j' hj'
          omega)]
    exact ih (fun y hy => hne y (List.mem_cons_of_mem _ hy)) post (en + ext_bump data x)
      (by omega)

lemma find_from_no_match (disk : Nat → Nat → Nat) (data : Nat → Nat) (p : Int) :
    ∀ (l : List Nat) (en : Nat), 4 ≤ en →
      (∀ x ∈ l, (slot_rec data x).nb_sectors_abs ≠ 0 →
        ¬ is_ext_rec (slot_rec data x) → ((x : Int) + 1 ≠ p)) →
      (∀ (pre : List Nat) (x : Nat) (post : List Nat), l = pre ++ x :: post →
        (slot_rec data x).nb_sectors_abs ≠ 0 → is_ext_rec (slot_rec data x) →
        ∀ j : Nat, j < 4 →
          (slot_rec (disk (slot_rec data x).start_sector_abs) j).nb_sectors_abs ≠ 0 →
          ((en : Int) + 4 * ext_slots_in data pre + j + 1 ≠ p)) →
      find_from disk data p en l = .enoent := by
  intro l
  induction l with
  | nil => intro en _ _ _; rfl
  | cons x t ih =>
    intro en hen H1 H2
    rw [find_from_skip disk data p en x t
      (H1 x (List.mem_cons_self _ _))
      (fun hxnb hxext => by
        apply scan_ext_none
        intro j' hj' hj'nb
        have hj4 : j' < 4 := mem_range4 j' hj'
        have h := H2 [] x t rfl hxnb hxext j' hj4 hj'nb
        rw [ext_slots_in_nil] at h
        intro hc
        apply h
        rw [← hc]
        push_cast
        ring)]
    apply ih (en + ext_bump data x) (by omega)
    · exact fun y hy => H1 y (List.mem_cons_of_mem _ hy)
    · intro pre' x' post' hdec hnb' hext' j hj hjnb
      have h := H2 (x :: pre') x' post' (by rw [hdec, List.cons_append]) hnb' hext' j hj hjnb
      have hbc := ext_bump_count data x pre'
      intro hc
      apply h
      rw [← hc]
      push_cast
      push_cast at hbc
      omega

lemma find_partition_valid (disk : Nat → Nat → Nat) (p : Int) (hsig : valid_sig disk) :
    find_partition disk p = find_from disk (disk 0) p 4 [0, 1, 2, 3] := by
  unfold find_partition
  rw [if_neg]
  intro h
  rcases h with h | h
  · exact h hsig.1
  · exact h hsig.2

lemma slot_rec_start_lt (d : Nat → Nat) (i : Nat) :
    (slot_rec d i).start_sector_abs < 2 ^ 32 := read_partition_start_abs_lt _

lemma slot_rec_nb_lt (d : Nat → Nat) (i : Nat) :
    (slot_rec d i).nb_sectors_abs < 2 ^ 32 := read_partition_nb_abs_lt _

lemma scan_ext_found_structure (d : Nat → Nat) (en : Nat) (p : Int) :
    ∀ (js : List Nat) (o s : Nat), scan_ext d en p js = some (o, s) →
      ∃ v w, v < 2 ^ 32 ∧ w < 2 ^ 32 ∧ o = v * 512 ∧ s = w * 512 := by
  intro js
  induction js with
  | nil => intro o s h; exact absurd h (by rw [scan_ext_nil]; intro h; cases h)
  | cons j rest ih =>
    intro o s h
    rw [scan_ext_cons] at h
    by_cases h0 : (slot_rec d j).nb_sectors_abs = 0
    · rw [if_pos h0] at h; exact ih o s h
    · rw [if_neg h0] at h
      by_cases hc : ((en : Int) + j + 1 = p)
      · rw [if_pos hc] at h
        have ho := (Option.some.injEq _ _).mp h
        have h1 := congrArg Prod.fst ho
        have h2 := congrArg Prod.snd ho
        simp only at h1 h2
        refine ⟨(slot_rec d j).start_sector_abs, (slot_rec d j).nb_sectors_abs,
          slot_rec_start_lt _ _, slot_rec_nb_lt _ _, ?_, ?_⟩
        · rw [← h1]; exact sector_bytes_eq _ (slot_rec_start_lt _ _)
        · rw [← h2]; exact sector_bytes_eq _ (slot_rec_nb_lt _ _)
      · rw [if_neg hc] at h; exact ih o s h

lemma find_from_found_structure (disk : Nat → Nat → Nat) (data : Nat → Nat) (p : Int) :
    ∀ (l : List Nat) (en o s : Nat), find_from disk data p en l = .found o s →
      ∃ v w, v < 2 ^ 32 ∧ w < 2 ^ 32 ∧ o = v * 512 ∧ s = w * 512 := by
  intro l
  induction l with
  | nil => intro en o s h; exact absurd h (by rw [find_from_nil]; intro h; cases h)
  | cons i rest ih =>
    intro en o s h
    rw [find_from_cons] at h
    by_cases h0 : (slot_rec data i).nb_sectors_abs = 0
    · rw [if_pos h0] at h; exact ih en o s h
    · rw [if_neg h0] at h
      by_cases hext : is_ext_rec (slot_rec data i)
      · rw [if_pos hext] at h
        cases hsc : scan_ext (disk (slot_rec data i).start_sector_abs) en p [0, 1, 2, 3] with
        | none =>
          rw [hsc] at h
          exact ih (en + 4) o s h
        | some os =>
          obtain ⟨o', s'⟩ := os
          rw [hsc] at h
          have h' : FindResult.found o' s' = .found o s := h
          injection h' with h1 h2
          rw [← h1, ← h2]
          exact scan_ext_found_structure _ en p [0, 1, 2, 3] o' s' hsc
      · rw [if_neg hext] at h
        by_cases hc : ((i : Int) + 1 = p)
        · rw [if_pos hc] at h
          injection h with h1 h2
          refine ⟨(slot_rec data i).start_sector_abs, (slot_rec data i).nb_sectors_abs,
            slot_rec_start_lt _ _, slot_rec_nb_lt _ _, ?_, ?_⟩
          · rw [← h1]; exact sector_bytes_eq _ (slot_rec_start_lt _ _)
          · rw [← h2]; exact sector_bytes_eq _ (slot_rec_nb_lt _ _)
        · rw [if_neg hc] at h; exact ih en o s h

lemma decomp4 (pre : List Nat) (x : Nat) (post : List Nat)
    (h : pre ++ x :: post = [0, 1, 2, 3]) :
    (pre = [] ∧ x = 0) ∨ (pre = [0] ∧ x = 1) ∨
    (pre = [0, 1] ∧ x = 2) ∨ (pre = [0, 1, 2] ∧ x = 3) := by
  rcases pre with _ | ⟨a, _ | ⟨b, _ | ⟨c, _ | ⟨d, t⟩⟩⟩⟩ <;> simp_all

/-- Claim C1: for every image whose MBR has a valid boot signature and whose
primary slot i holds a non-empty extended container (system 0x5 or 0xF),
find_partition numbers the container's non-empty logical sub-slots by
sub-slot index starting at the running logical counter plus 1 (the counter
starts at 4 and advances by exactly 4 per container visited, regardless of
how many sub-slots were occupied, which is what ext_index counts), and
returns exactly (startSectorAbs << 9, sectorCountAbs << 9) of the matching
sub-slot; hence partition number 5 reaches sub-slot 0 of the first container
and partition number 9 reaches the first logical entry of a second
container. -/
theorem logical_partition_numbering (disk : Nat → Nat → Nat) (i j : Nat)
    (hsig : valid_sig disk) (hi : i < 4) (hext : is_ext_slot disk i)
    (hj : j < 4) (hnb : (logical_rec disk i j).nb_sectors_abs ≠ 0) :
    find_partition disk ((4 : Int) + 4 * ext_index disk i + j + 1) =
      .found ((logical_rec disk i j).start_sector_abs * 512)
             ((logical_rec disk i j).nb_sectors_abs * 512) := by
  rw [find_partition_valid disk _ hsig]
  have hs : sector_bytes (logical_rec disk i j).start_sector_abs =
      (logical_rec disk i j).start_sector_abs * 512 :=
    sector_bytes_eq _ (slot_rec_start_lt _ _)
  have hn : sector_bytes (logical_rec disk i j).nb_sectors_abs =
      (logical_rec disk i j).nb_sectors_abs * 512 :=
    sector_bytes_eq _ (slot_rec_nb_lt _ _)
  rw [← hs, ← hn]
  interval_cases i
  · exact find_from_logical disk (disk 0) 0 j hext.1 hext.2 hj hnb
      [] (by intro x hx; simp at hx) [1, 2, 3] 4 _ (by norm_num) rfl
  · exact find_from_logical disk (disk 0) 1 j hext.1 hext.2 hj hnb
      [0] (by intro x hx; simp at hx; omega) [2, 3] 4 _ (by norm_num) rfl
  · exact find_from_logical disk (disk 0) 2 j hext.1 hext.2 hj hnb
      [0, 1] (by intro x hx; simp at hx; omega) [3] 4 _ (by norm_num) rfl
  · exact find_from_logical disk (disk 0) 3 j hext.1 hext.2 hj hnb
      [0, 1, 2] (by intro x hx; simp at hx; omega) [] 4 _ (by norm_num) rfl

/-- Witness for C1: on ext_disk (one extended container in primary slot 0
with a populated sub-slot 0), partition number 4 + 4 * ext_index + 0 + 1 = 5
is found with the sub-slot's byte offset and size. -/
theorem logical_partition_numbering_witness :
    valid_sig ext_disk ∧ is_ext_slot ext_disk 0 ∧
    (logical_rec ext_disk 0 0).nb_sectors_abs ≠ 0 ∧
    find_partition ext_disk ((4 : Int) + 4 * ext_index ext_disk 0 + (0 : Nat) + 1) =
      .found ((logical_rec ext_disk 0 0).start_sector_abs * 512)
             ((logical_rec ext_disk 0 0).nb_sectors_abs * 512) :=
  ⟨by decide, by decide, by decide,
    logical_partition_numbering ext_disk 0 0 (by decide) (by decide) (by decide)
      (by decide) (by decide)⟩

/-- Claim C2: every partition number i + 1 (for i in 0..3) naming a non-empty
primary slot that is not an extended container is located with offset
startSectorAbs * 512 and size sectorCountAbs * 512 exactly; in particular on
sample_disk (slot 1 = system 0x83, start 2048, count 204800, valid
signature) partition 1 yields (1048576, 104857600). -/
theorem primary_partition_located :
    (∀ (disk : Nat → Nat → Nat) (i : Nat), valid_sig disk → i < 4 →
      (primary_rec disk i).nb_sectors_abs ≠ 0 → ¬ is_ext_rec (primary_rec disk i) →
      find_partition disk ((i : Int) + 1) =
        .found ((primary_rec disk i).start_sector_abs * 512)
               ((primary_rec disk i).nb_sectors_abs * 512)) ∧
    find_partition sample_disk 1 = .found 1048576 104857600 := by
  constructor
  · intro disk i hsig hi hnb hnotext
    rw [find_partition_valid disk _ hsig]
    have hs : sector_bytes (primary_rec disk i).start_sector_abs =
        (primary_rec disk i).start_sector_abs * 512 :=
      sector_bytes_eq _ (slot_rec_start_lt _ _)
    have hn : sector_bytes (primary_rec disk i).nb_sectors_abs =
        (primary_rec disk i).nb_sectors_abs * 512 :=
      sector_bytes_eq _ (slot_rec_nb_lt _ _)
    rw [← hs, ← hn]
    interval_cases i
    · exact find_from_primary disk (disk 0) 0 (by norm_num) hnb hnotext
        [] (by intro x hx; simp at hx) [1, 2, 3] 4 (by norm_num)
    · exact find_from_primary disk (disk 0) 1 (by norm_num) hnb hnotext
        [0] (by intro x hx; simp at hx; omega) [2, 3] 4 (by norm_num)
    · exact find_from_primary disk (disk 0) 2 (by norm_num) hnb hnotext
        [0, 1] (by intro x hx; simp at hx; omega) [3] 4 (by norm_num)
    · exact find_from_primary disk (disk 0) 3 (by norm_num) hnb hnotext
        [0, 1, 2] (by intro x hx; simp at hx; omega) [] 4 (by norm_num)
  · decide

/-- Witness for C2: the general statement applied to sample_disk and its
primary slot 0 (partition number 1). -/
theorem primary_partition_located_witness :
    valid_sig sample_disk ∧
    find_partition sample_disk (((0 : Nat) : Int) + 1) =
      .found ((primary_rec sample_disk 0).start_sector_abs * 512)
             ((primary_rec sample_disk 0).nb_sectors_abs * 512) :=
  ⟨by decide,
    primary_partition_located.1 sample_disk 0 (by decide) (by decide) (by decide)
      (by decide)⟩

/-- Claim C5: whenever the two trailing bytes of sector 0 are not 0x55
followed by 0xAA, find_partition fails with -EINVAL whatever partition
number was requested (the table slots never influence the result). -/
theorem invalid_signature_einval (disk : Nat → Nat → Nat) (partition : Int)
    (h : byte (disk 0) 510 ≠ 0x55 ∨ byte (disk 0) 511 ≠ 0xaa) :
    find_partition disk partition = .einval := by
  unfold find_partition
  rw [if_pos h]

/-- Witness for C5: the all-zero image lacks the signature, so looking up
partition 7 yields -EINVAL. -/
theorem invalid_signature_einval_witness :
    (byte (zero_disk 0) 510 ≠ 0x55 ∨ byte (zero_disk 0) 511 ≠ 0xaa) ∧
    find_partition zero_disk 7 = .einval :=
  ⟨Or.inl (by decide), invalid_signature_einval zero_disk 7 (Or.inl (by decide))⟩

/-- Claim C6: on an image with a valid boot signature, any partition number
that no slot matches (no non-empty non-container primary slot numbered
i + 1, and no non-empty logical sub-slot numbered 4 + 4 * ext_index + j + 1)
makes find_partition return -ENOENT after the scan of all four primary
slots and their extended children. -/
theorem no_match_enoent (disk : Nat → Nat → Nat) (p : Int)
    (hsig : valid_sig disk) (hno : ¬ slot_matches disk p) :
    find_partition disk p = .enoent := by
  rw [find_partition_valid disk p hsig]
  apply find_from_no_match disk (disk 0) p [0, 1, 2, 3] 4 (by norm_num)
  · intro x hx hnb hnext hc
    have hx4 : x < 4 := mem_range4 x hx
    exact hno (Or.inl ⟨⟨x, hx4⟩, hnb, hnext, hc⟩)
  · intro pre x post hdec hnb hext j hj hjnb hc
    apply hno
    right
    rcases decomp4 pre x post hdec.symm with ⟨hpre, hx⟩ | ⟨hpre, hx⟩ | ⟨hpre, hx⟩ | ⟨hpre, hx⟩ <;>
      subst hpre <;> subst hx
    · exact ⟨⟨0, by omega⟩, ⟨j, hj⟩, ⟨hnb, hext⟩, hjnb, hc⟩
    · exact ⟨⟨1, by omega⟩, ⟨j, hj⟩, ⟨hnb, hext⟩, hjnb, hc⟩
    · exact ⟨⟨2, by omega⟩, ⟨j, hj⟩, ⟨hnb, hext⟩, hjnb, hc⟩
    · exact ⟨⟨3, by omega⟩, ⟨j, hj⟩, ⟨hnb, hext⟩, hjnb, hc⟩

/-- Witness for C6: the valid-signature image with four empty primary slots
matches no partition number, so partition 3 yields -ENOENT. -/
theorem no_match_enoent_witness :
    valid_sig empty_mbr_disk ∧ ¬ slot_matches empty_mbr_disk 3 ∧
    find_partition empty_mbr_disk 3 = .enoent :=
  ⟨by decide, by decide, no_match_enoent empty_mbr_disk 3 (by decide) (by decide)⟩

/-- Claim C10: the matched slot's offset and size are produced by the
64-bit computation (uint64_t)v << 9, which equals v * 512 exactly for every
uint32_t field value (no 32-bit truncation), including v = 2^32 - 1; and
every found result of find_partition has offset and size of exactly that
shape. -/
theorem found_offsets_are_64bit_exact :
    (∀ v : Nat, v < 2 ^ 32 → sector_bytes v = v * 512) ∧
    sector_bytes (2 ^ 32 - 1) = (2 ^ 32 - 1) * 512 ∧
    (∀ (disk : Nat → Nat → Nat) (p : Int) (o s : Nat),
      find_partition disk p = .found o s →
      ∃ v w, v < 2 ^ 32 ∧ w < 2 ^ 32 ∧ o = v * 512 ∧ s = w * 512) := by
  refine ⟨sector_bytes_eq, sector_bytes_eq _ (by norm_num), ?_⟩
  intro disk p o s h
  unfold find_partition at h
  by_cases hsig : byte (disk 0) 510 ≠ 0x55 ∨ byte (disk 0) 511 ≠ 0xaa
  · rw [if_pos hsig] at h; cases h
  · rw [if_neg hsig] at h
    exact find_from_found_structure disk (disk 0) p [0, 1, 2, 3] 4 o s h

/-- Witness for C10: the no-truncation identity at v = 2^32 - 1 and the
shape of the concrete found result on sample_disk. -/
theorem found_offsets_are_64bit_exact_witness :
    sector_bytes 4294967295 = 4294967295 * 512 ∧
    (∃ v w, v < 2 ^ 32 ∧ w < 2 ^ 32 ∧ 1048576 = v * 512 ∧ 104857600 = w * 512) :=
  ⟨found_offsets_are_64bit_exact.1 4294967295 (by norm_num),
    found_offsets_are_64bit_exact.2.2 sample_disk 1 1048576 104857600 (by decide)⟩

lemma accept_n_fields (n : Nat) (s : ServerState) :
    (accept_n n s).nb_fds = s.nb_fds + n ∧ (accept_n n s).shared = s.shared := by
  induction n with
  | zero => simp [accept_n]
  | succ m ih =>
    unfold accept_n nbd_accept
    simp only [Bool.and_self, if_true]
    constructor
    · rw [ih.1]; push_cast; ring
    · exact ih.2

/-- Claim C3 counterexample: with activeClients = 0 a stray extra close
notification drives nb_fds to -1; nbd_client_closed does not clamp at 0,
so the claimed invariant 0 <= activeClients is not preserved by it. -/
theorem extra_close_goes_negative :
    (nbd_client_closed
      { nb_fds := 0, shared := 1, nbd_started := true, sigterm_reported := false }).nb_fds
      < 0 := by decide

/-- Claim C3 (amended): nbd_client_closed decrements nb_fds unconditionally,
with no clamping (and no logging); the counter stays non-negative only when
the close does not outnumber the accepts, i.e. when nb_fds >= 1 before the
call. -/
theorem close_decrements_unclamped (s : ServerState) :
    (nbd_client_closed s).nb_fds = s.nb_fds - 1 ∧
    (1 ≤ s.nb_fds → 0 ≤ (nbd_client_closed s).nb_fds) := by
  refine ⟨rfl, fun h => ?_⟩
  unfold nbd_client_closed
  simp only
  omega

/-- Witness for the amended C3: one close after one accept lands back at 0. -/
theorem close_decrements_unclamped_witness :
    (nbd_client_closed
      { nb_fds := 1, shared := 1, nbd_started := true, sigterm_reported := false }).nb_fds =
      ({ nb_fds := 1, shared := 1, nbd_started := true, sigterm_reported := false } :
        ServerState).nb_fds - 1 ∧
    0 ≤ (nbd_client_closed
      { nb_fds := 1, shared := 1, nbd_started := true, sigterm_reported := false }).nb_fds :=
  ⟨(close_decrements_unclamped _).1, (close_decrements_unclamped _).2 (by decide)⟩

/-- Claim C4: the do/while continuation condition is exactly
!sigterm_reported && (persistent || !nbd_started || nb_fds > 0);
consequently with persistent = 0 the loop stops as soon as nbd_started
holds and nb_fds is back to 0 even without a signal, and with
persistent != 0 the loop stops exactly when sigterm_reported is set. -/
theorem main_loop_predicate_exact (persistent : Int) (s : ServerState) :
    (main_loop_continue persistent s = true ↔
      (s.sigterm_reported = false ∧
        (persistent ≠ 0 ∨ s.nbd_started = false ∨ 0 < s.nb_fds))) ∧
    (persistent = 0 → s.nbd_started = true → s.nb_fds ≤ 0 →
      main_loop_continue persistent s = false) ∧
    (persistent ≠ 0 →
      (main_loop_continue persistent s = false ↔ s.sigterm_reported = true)) := by
  obtain ⟨nb, sh, st, sig⟩ := s
  cases st <;> cases sig <;>
    (simp [main_loop_continue]; try omega)

/-- Witness for C4: persistent 0, one connection served and closed, no
signal: the loop condition is false, so the loop terminates. -/
theorem main_loop_predicate_exact_witness :
    main_loop_continue 0
      { nb_fds := 0, shared := 1, nbd_started := true, sigterm_reported := false } = false :=
  (main_loop_predicate_exact 0
    { nb_fds := 0, shared := 1, nbd_started := true, sigterm_reported := false }).2.1
    rfl rfl (by decide)

/-- Claim C7: nbd_can_accept is exactly nb_fds < shared, recomputed from the
current state; after N successful accepts starting from 0 active clients
with shared = N, admission is denied, and one close notification restores
it. -/
theorem admission_iff_below_limit (N : Nat) (_hN : 1 ≤ N) :
    (∀ s : ServerState, nbd_can_accept s = true ↔ s.nb_fds < s.shared) ∧
    nbd_can_accept (accept_n N
      { nb_fds := 0, shared := (N : Int), nbd_started := false,
        sigterm_reported := false }) = false ∧
    nbd_can_accept (nbd_client_closed (accept_n N
      { nb_fds := 0, shared := (N : Int), nbd_started := false,
        sigterm_reported := false })) = true := by
  have h := accept_n_fields N
    { nb_fds := 0, shared := (N : Int), nbd_started := false, sigterm_reported := false }
  refine ⟨fun s => by simp [nbd_can_accept], ?_, ?_⟩
  · simp only [nbd_can_accept, h.1, h.2, decide_eq_false_iff_not, not_lt]
    omega
  · simp only [nbd_can_accept, nbd_client_closed, h.1, h.2, decide_eq_true_eq]
    omega

/-- Witness for C7: with a limit of 2, two accepted clients saturate the
gate and one close reopens it. -/
theorem admission_iff_below_limit_witness :
    nbd_can_accept (accept_n 2
      { nb_fds := 0, shared := (2 : Int), nbd_started := false,
        sigterm_reported := false }) = false ∧
    nbd_can_accept (nbd_client_closed (accept_n 2
      { nb_fds := 0, shared := (2 : Int), nbd_started := false,
        sigterm_reported := false })) = true :=
  ⟨(admission_iff_below_limit 2 (by decide)).2.1,
    (admission_iff_below_limit 2 (by decide)).2.2⟩

/-- Claim C8 counterexample: a readiness event whose accept fails
(fd < 0) still flips nbd_started to true, so the acceptor state is not
left unchanged and everAccepted does not stay false. -/
theorem failed_accept_marks_started :
    (nbd_accept
      { nb_fds := 0, shared := 1, nbd_started := false, sigterm_reported := false }
      false false).nbd_started = true ∧
    nbd_accept
      { nb_fds := 0, shared := 1, nbd_started := false, sigterm_reported := false }
      false false ≠
      { nb_fds := 0, shared := 1, nbd_started := false, sigterm_reported := false } := by
  decide

/-- Claim C8 (amended): nbd_accept sets nbd_started on every readiness
event, successful or not (it is assigned right after the accept call,
before the fd check); nb_fds is incremented exactly when fd >= 0 and
nbd_client_new succeeds, and a failed attempt leaves nb_fds, shared and
sigterm_reported unchanged, so the server keeps running. -/
theorem accept_attempt_effects (s : ServerState) (fd_ok client_ok : Bool) :
    (nbd_accept s fd_ok client_ok).nbd_started = true ∧
    ((fd_ok && client_ok) = true →
      (nbd_accept s fd_ok client_ok).nb_fds = s.nb_fds + 1) ∧
    ((fd_ok && client_ok) = false →
      (nbd_accept s fd_ok client_ok).nb_fds = s.nb_fds) ∧
    (nbd_accept s fd_ok client_ok).shared = s.shared ∧
    (nbd_accept s fd_ok client_ok).sigterm_reported = s.sigterm_reported := by
  cases fd_ok <;> cases client_ok <;> simp [nbd_accept]

/-- Witness for the amended C8: a failed accept attempt sets nbd_started
and leaves nb_fds at its previous value. -/
theorem accept_attempt_effects_witness :
    (nbd_accept
      { nb_fds := 0, shared := 1, nbd_started := false, sigterm_reported := false }
      false false).nbd_started = true ∧
    (nbd_accept
      { nb_fds := 0, shared := 1, nbd_started := false, sigterm_reported := false }
      false false).nb_fds =
      ({ nb_fds := 0, shared := 1, nbd_started := false, sigterm_reported := false } :
        ServerState).nb_fds :=
  ⟨(accept_attempt_effects _ false false).1,
    (accept_attempt_effects _ false false).2.2.1 (by decide)⟩

/-- Claim C9: the six-bit sector fields are decoded with & 0x3f as claimed,
and start_cylinder is the full 10-bit assembly; but end_cylinder is stored
into a uint8_t struct field, so the 10-bit assembly
p[7] | ((p[6] << 2) & 0x300) is truncated mod 256: on a slot with
p[6] = 0xC0 and p[7] = 0 the assembly is 768 while the decoded field is 0,
losing the two high cylinder bits. -/
theorem end_cylinder_truncated :
    (read_partition cyl_slot).end_cylinder = 0 ∧
    (byte cyl_slot 7 ||| ((byte cyl_slot 6 <<< 2) &&& 0x300)) = 768 ∧
    (read_partition cyl_slot).end_sector = byte cyl_slot 6 &&& 0x3f ∧
    (read_partition cyl_slot).start_sector = byte cyl_slot 2 &&& 0x3f := by
  decide
